import Mathlib

set_option autoImplicit false

/-!
Shallow embedding of `src/check.py` (kshedden/RFID2).

The script loads a "signals" table and a reference "locations" table per
entity type ("patient", "provider"), derives a predicted `Location` per
signal row as `df1.iloc[:, 5:].idxmax(axis=1)`, inner-merges the two
tables (`CSN`+`Time` for patients, `UMid`+`Time` for providers), and
prints the mean of the boolean series `dx.Location == dx.Room1`; for
patients it additionally prints the means of `df1.Time >= df1.ClarityStart`
and `df1.Time <= df1.ClarityEnd`.

Dataframe cells are modelled by `Cell` (missing / numeric / string);
`pd.to_datetime` is modelled as reading an already-normalized numeric
timestamp, with non-numeric cells becoming `NaT` (`none`), so that
timestamps live in a totally ordered type and comparisons with `NaT`
are `false`, as in pandas.
-/

namespace RFID2

/-- A dataframe cell as loaded by `pd.read_csv`: missing (`NaN`), numeric,
or string. -/
inductive Cell where
  | na : Cell
  | num (v : Int) : Cell
  | str (s : String) : Cell
deriving DecidableEq, Repr

/-- Numeric view of a cell; `none` for missing or non-numeric cells. -/
def Cell.toNum? : Cell → Option Int
  | num v => some v
  | _ => none

/-- A raw dataframe as produced by `pd.read_csv`: a header of column names
and rows of cells. -/
structure RawTable where
  cols : List String
  rows : List (List Cell)
deriving DecidableEq, Repr

/-- Tail of the row scan of `idxmax(axis=1)`: `best` is the first-seen
maximum so far (column name and value); a later numeric cell replaces it
only when strictly greater, non-numeric cells are skipped (`skipna`). -/
def idxmaxGo : String × Int → List (String × Cell) → String
  | best, [] => best.1
  | best, (c, Cell.num v) :: rest =>
    if best.2 < v then idxmaxGo (c, v) rest else idxmaxGo best rest
  | best, _ :: rest => idxmaxGo best rest

/-- Row-wise `idxmax(axis=1)` over named cells: the name of the first
column attaining the maximal numeric value, `none` when no cell is
numeric (all-`NaN` row). -/
def idxmax : List (String × Cell) → Option String
  | [] => none
  | (c, cell) :: rest =>
    match cell with
    | Cell.num v => some (idxmaxGo (c, v) rest)
    | _ => idxmax rest

/-- Offset of the signal-column slice: `df1.iloc[:, 5:]` (line 8). -/
def signalOffset : Nat := 5

/-- Line 8, for one row: `df1["Location"] = df1.iloc[:, 5:].idxmax(axis=1)`.
Only the columns from `signalOffset` onward enter the argmax. -/
def deriveLocation (cols : List String) (row : List Cell) : Option String :=
  idxmax ((cols.drop signalOffset).zip (row.drop signalOffset))

/-- The derived `Location` column of a raw signals table. -/
def derivedLocations (t : RawTable) : List (Option String) :=
  t.rows.map (deriveLocation t.cols)

/-- Model of `pd.to_datetime` on a cell: a numeric cell is an
already-normalized timestamp, anything else parses to `NaT` (`none`). -/
def toDatetime (c : Cell) : Option Int :=
  c.toNum?

/-- A patient signal row after line 14's column selection
`df1[["TagId", "Time", "Location", "CSN", "ClarityStart", "ClarityEnd"]]`
and line 15's `Time` parsing. `ClarityStart`/`ClarityEnd` stay raw cells:
the script parses them only at lines 29-30, after the merge. -/
structure PatientSignalRow where
  tagId : Cell
  time : Option Int
  location : Option String
  csn : Cell
  clarityStart : Cell
  clarityEnd : Cell
deriving DecidableEq, Repr

/-- A provider signal row after line 14's column selection
`df1[["TagId", "Time", "Location", "UMid"]]` and line 15's parsing. -/
structure ProviderSignalRow where
  tagId : Cell
  time : Option Int
  location : Option String
  umid : Cell
deriving DecidableEq, Repr

/-- A reference row after line 19's selection
`df2[["TagID", "CSN", "UMid", "Time", "Room1"]]` and line 18's parsing. -/
structure RefRow where
  tagID : Cell
  csn : Cell
  umid : Cell
  time : Option Int
  room1 : Cell
deriving DecidableEq, Repr

/-- Inner `pd.merge`: each left row paired with every right row whose join
key matches, in order; left rows with no match produce nothing. -/
def innerMerge {α β : Type} (key : α → β → Bool) (l : List α) (r : List β) :
    List (α × β) :=
  l.flatMap fun a => (r.filter fun b => key a b).map fun b => (a, b)

/-- Patient join key (line 22): `left_on=["CSN", "Time"]`,
`right_on=["CSN", "Time"]`. -/
def patientKeyMatch (a : PatientSignalRow) (b : RefRow) : Bool :=
  decide (a.csn = b.csn) && decide (a.time = b.time)

/-- Provider join key (line 24): `left_on=["UMid", "Time"]`,
`right_on=["UMid", "Time"]`. -/
def providerKeyMatch (a : ProviderSignalRow) (b : RefRow) : Bool :=
  decide (a.umid = b.umid) && decide (a.time = b.time)

/-- Line 22: `dx = pd.merge(df1, df2, left_on=["CSN", "Time"], ...)`. -/
def mergePatient (l : List PatientSignalRow) (r : List RefRow) :
    List (PatientSignalRow × RefRow) :=
  innerMerge patientKeyMatch l r

/-- Line 24: `dx = pd.merge(df1, df2, left_on=["UMid", "Time"], ...)`. -/
def mergeProvider (l : List ProviderSignalRow) (r : List RefRow) :
    List (ProviderSignalRow × RefRow) :=
  innerMerge providerKeyMatch l r

/-- Mean of a boolean series, as in pandas: `NaN` (`none`) on the empty
series, otherwise the count of `true` over the length. -/
def boolMean : List Bool → Option ℚ
  | [] => none
  | b :: bs => some (((b :: bs).countP id : ℚ) / ((b :: bs).length : ℚ))

/-- Elementwise `dx.Location == dx.Room1`: string equality; a missing
value on either side compares `false`, as `NaN` does in pandas. -/
def locEq (loc : Option String) (room : Cell) : Bool :=
  match loc, room with
  | some s, Cell.str t => decide (s = t)
  | _, _ => false

/-- Line 26 for the patient flow: `(dx.Location == dx.Room1).mean()`. -/
def agreementPatient (l : List PatientSignalRow) (r : List RefRow) : Option ℚ :=
  boolMean ((mergePatient l r).map fun p => locEq p.1.location p.2.room1)

/-- Line 26 for the provider flow: `(dx.Location == dx.Room1).mean()`. -/
def agreementProvider (l : List ProviderSignalRow) (r : List RefRow) : Option ℚ :=
  boolMean ((mergeProvider l r).map fun p => locEq p.1.location p.2.room1)

/-- Elementwise `>=` on timestamps: any comparison with `NaT` is `false`,
as in pandas. -/
def tsGe : Option Int → Option Int → Bool
  | some x, some y => decide (y ≤ x)
  | _, _ => false

/-- Elementwise `<=` on timestamps: any comparison with `NaT` is `false`,
as in pandas. -/
def tsLe : Option Int → Option Int → Bool
  | some x, some y => decide (x ≤ y)
  | _, _ => false

/-- Lines 29 and 31: `(df1.Time >= df1.ClarityStart).mean()`, computed
over every row of the (un-merged) signals table. -/
def coverageStart (l : List PatientSignalRow) : Option ℚ :=
  boolMean (l.map fun a => tsGe a.time (toDatetime a.clarityStart))

/-- Lines 30 and 32: `(df1.Time <= df1.ClarityEnd).mean()`, computed
over every row of the (un-merged) signals table. -/
def coverageEnd (l : List PatientSignalRow) : Option ℚ :=
  boolMean (l.map fun a => tsLe a.time (toDatetime a.clarityEnd))

/-- Alternative metric written from the spec's words only, for contrast
with what the code computes: a single joint inside-the-window fraction.
The spec asserts the code does NOT compute this. -/
def jointInsideWindowFraction (l : List PatientSignalRow) : Option ℚ :=
  boolMean (l.map fun a =>
    tsGe a.time (toDatetime a.clarityStart) && tsLe a.time (toDatetime a.clarityEnd))

/-- Column access `row[name]`: `none` when the header lacks the column
(pandas raises `KeyError` there); a ragged row reads missing cells as
`NaN`. -/
def getCell? (cols : List String) (name : String) (row : List Cell) :
    Option Cell :=
  match cols.findIdx? (fun c => c == name) with
  | none => none
  | some i => some ((row[i]?).getD Cell.na)

/-- Lines 8-15 for one patient row: derive `Location`, select the patient
columns, parse `Time`. Fails (`none`) when an expected column is absent. -/
def mkPatientRow (cols : List String) (row : List Cell) :
    Option PatientSignalRow := do
  let tagId ← getCell? cols "TagId" row
  let time ← getCell? cols "Time" row
  let csn ← getCell? cols "CSN" row
  let cs ← getCell? cols "ClarityStart" row
  let ce ← getCell? cols "ClarityEnd" row
  pure { tagId := tagId, time := toDatetime time,
         location := deriveLocation cols row,
         csn := csn, clarityStart := cs, clarityEnd := ce }

/-- Lines 8-15 for one provider row. -/
def mkProviderRow (cols : List String) (row : List Cell) :
    Option ProviderSignalRow := do
  let tagId ← getCell? cols "TagId" row
  let time ← getCell? cols "Time" row
  let umid ← getCell? cols "UMid" row
  pure { tagId := tagId, time := toDatetime time,
         location := deriveLocation cols row, umid := umid }

/-- Lines 17-19 for one reference row: parse `Time`, select the columns
`TagID`, `CSN`, `UMid`, `Time`, `Room1`. -/
def mkRefRow (cols : List String) (row : List Cell) : Option RefRow := do
  let tagID ← getCell? cols "TagID" row
  let csn ← getCell? cols "CSN" row
  let umid ← getCell? cols "UMid" row
  let time ← getCell? cols "Time" row
  let room1 ← getCell? cols "Room1" row
  pure { tagID := tagID, csn := csn, umid := umid,
         time := toDatetime time, room1 := room1 }

/-- Whole signals table to patient rows. -/
def buildPatientSignals (t : RawTable) : Option (List PatientSignalRow) :=
  t.rows.mapM (mkPatientRow t.cols)

/-- Whole signals table to provider rows. -/
def buildProviderSignals (t : RawTable) : Option (List ProviderSignalRow) :=
  t.rows.mapM (mkProviderRow t.cols)

/-- Whole locations table to reference rows. -/
def buildRefRows (t : RawTable) : Option (List RefRow) :=
  t.rows.mapM (mkRefRow t.cols)

/-- One line printed to the console by the script. -/
inductive OutputLine where
  | agreement (v : Option ℚ)
  | coverage (v : Option ℚ)
deriving DecidableEq, Repr

/-- The observable machine state the script touches: a file store (name
to parsed table) and the console. -/
structure World where
  files : List (String × RawTable)
  console : List OutputLine
deriving DecidableEq, Repr

/-- Model of `pd.read_csv(name)`: look the file up; `none` when absent
(the script would raise `FileNotFoundError`). -/
def readFile? (files : List (String × RawTable)) (name : String) :
    Option RawTable :=
  (files.find? fun p => p.1 == name).map Prod.snd

/-- Line 7's path `"%s_signals.csv.gz" % xn`. -/
def signalsPath (xn : String) : String :=
  xn ++ "_signals.csv.gz"

/-- Line 17's path `"../rfid/%s_locations_sm.csv.gz" % xn`. -/
def locationsPath (xn : String) : String :=
  "../rfid/" ++ xn ++ "_locations_sm.csv.gz"

/-- One iteration of the loop over `"patient", "provider"` (lines 4-32):
the lines it prints, reading from the file store and writing nothing. -/
def runEntity (xn : String) (files : List (String × RawTable)) :
    Option (List OutputLine) := do
  let t1 ← readFile? files (signalsPath xn)
  let t2 ← readFile? files (locationsPath xn)
  if xn = "patient" then
    let df1 ← buildPatientSignals t1
    let df2 ← buildRefRows t2
    pure [OutputLine.agreement (agreementPatient df1 df2),
          OutputLine.coverage (coverageStart df1),
          OutputLine.coverage (coverageEnd df1)]
  else
    let df1 ← buildProviderSignals t1
    let df2 ← buildRefRows t2
    pure [OutputLine.agreement (agreementProvider df1 df2)]

/-- The whole script: both loop iterations; `none` models an uncaught
exception (missing file or column). -/
def runScript (w : World) : Option World := do
  let outPatient ← runEntity "patient" w.files
  let outProvider ← runEntity "provider" w.files
  pure { files := w.files, console := w.console ++ outPatient ++ outProvider }

/-- Specification predicate for first-seen argmax: `c` sits at some
position `i` of the named-cell list with numeric value `v`, `v` is
maximal among all numeric cells, and every numeric cell before `i` is
strictly below `v`. -/
def FirstMaxAt (pairs : List (String × Cell)) (c : String) : Prop :=
  ∃ (i : Nat) (v : Int), pairs[i]? = some (c, Cell.num v) ∧
    (∀ (c' : String) (w : Int), (c', Cell.num w) ∈ pairs → w ≤ v) ∧
    (∀ (c' : String) (w : Int), (c', Cell.num w) ∈ pairs.take i → w < v)

/-- The spec's three-row scenario table: two candidate room columns
`RoomA`, `RoomB` holding `(5, 1)`, `(2, 9)`, `(0, 0)`, behind the fixed
five-column identifier prefix. -/
def scenarioTable : RawTable :=
  { cols := ["TagId", "Time", "CSN", "ClarityStart", "ClarityEnd",
             "RoomA", "RoomB"],
    rows := [
      [Cell.na, Cell.na, Cell.na, Cell.na, Cell.na, Cell.num 5, Cell.num 1],
      [Cell.na, Cell.na, Cell.na, Cell.na, Cell.na, Cell.num 2, Cell.num 9],
      [Cell.na, Cell.na, Cell.na, Cell.na, Cell.na, Cell.num 0, Cell.num 0]] }

/-- Concrete patient signal row for witnesses. -/
def aPat : PatientSignalRow :=
  { tagId := Cell.str "T1", time := some 0, location := some "RoomA",
    csn := Cell.str "C1", clarityStart := Cell.num 0, clarityEnd := Cell.num 10 }

/-- Concrete matching reference row for witnesses. -/
def bRef : RefRow :=
  { tagID := Cell.str "T1", csn := Cell.str "C1", umid := Cell.na,
    time := some 0, room1 := Cell.str "RoomA" }

/-- Reference row sharing `aPat`'s key but a different room. -/
def bRef2 : RefRow :=
  { tagID := Cell.str "T1", csn := Cell.str "C1", umid := Cell.na,
    time := some 0, room1 := Cell.str "RoomB" }

/-- Reference row whose key matches no signal row used here. -/
def bRefOther : RefRow :=
  { tagID := Cell.str "T1", csn := Cell.str "C9", umid := Cell.na,
    time := some 0, room1 := Cell.str "RoomA" }

/-- Provider signal row whose tag id differs from `provRef`'s. -/
def provSig : ProviderSignalRow :=
  { tagId := Cell.str "T1", time := some 0, location := some "RoomB",
    umid := Cell.str "U1" }

/-- Reference row agreeing with `provSig` on `UMid` and `Time` but
carrying a different tag id. -/
def provRef : RefRow :=
  { tagID := Cell.str "T2", csn := Cell.na, umid := Cell.str "U1",
    time := some 0, room1 := Cell.str "RoomB" }

/-- Patient row whose `ClarityStart` and `ClarityEnd` are missing. -/
def aPatNaT : PatientSignalRow :=
  { tagId := Cell.str "T1", time := some 0, location := some "RoomA",
    csn := Cell.str "C1", clarityStart := Cell.na, clarityEnd := Cell.na }

/-- Three patient rows sharing window `[0, 10]` with timestamps `5`
(inside), `20` (after the end), `-5` (before the start): the two
per-bound fractions are both `2/3` while the joint inside-window
fraction is `1/3`. -/
def covDemo : List PatientSignalRow :=
  [{ tagId := Cell.str "T1", time := some 5, location := some "RoomA",
     csn := Cell.na, clarityStart := Cell.num 0, clarityEnd := Cell.num 10 },
   { tagId := Cell.str "T2", time := some 20, location := some "RoomA",
     csn := Cell.na, clarityStart := Cell.num 0, clarityEnd := Cell.num 10 },
   { tagId := Cell.str "T3", time := some (-5), location := some "RoomA",
     csn := Cell.na, clarityStart := Cell.num 0, clarityEnd := Cell.num 10 }]

/-- Concrete file store on which the whole script succeeds. -/
def demoFiles : List (String × RawTable) :=
  [(signalsPath "patient",
    { cols := ["TagId", "Time", "CSN", "ClarityStart", "ClarityEnd",
               "RoomA", "RoomB"],
      rows := [[Cell.str "T1", Cell.num 0, Cell.str "C1", Cell.num 0,
                Cell.num 10, Cell.num 5, Cell.num 1]] }),
   (locationsPath "patient",
    { cols := ["TagID", "CSN", "UMid", "Time", "Room1"],
      rows := [[Cell.str "T1", Cell.str "C1", Cell.na, Cell.num 0,
                Cell.str "RoomA"]] }),
   (signalsPath "provider",
    { cols := ["TagId", "Time", "UMid", "Col4", "Col5", "RoomA", "RoomB"],
      rows := [[Cell.str "T1", Cell.num 0, Cell.str "U1", Cell.na, Cell.na,
                Cell.num 3, Cell.num 7]] }),
   (locationsPath "provider",
    { cols := ["TagID", "CSN", "UMid", "Time", "Room1"],
      rows := [[Cell.str "T2", Cell.na, Cell.str "U1", Cell.num 0,
                Cell.str "RoomB"]] })]

/-- Starting world for the script witness. -/
def demoWorld : World :=
  { files := demoFiles, console := [] }

/-- The world the script produces from `demoWorld`: the same file store,
with the four metric lines printed. -/
def demoWorldOut : World :=
  { files := demoFiles,
    console := [OutputLine.agreement (agreementPatient [aPat] [bRef]),
                OutputLine.coverage (coverageStart [aPat]),
                OutputLine.coverage (coverageEnd [aPat]),
                OutputLine.agreement (agreementProvider [provSig] [provRef])] }

/-!
Helper lemmas, shared by the claim theorems below.
-/

/-- Membership in an inner merge is exactly membership of both halves
plus the key predicate. -/
theorem mem_innerMerge {α β : Type} (key : α → β → Bool) (l : List α)
    (r : List β) (p : α × β) :
    p ∈ innerMerge key l r ↔ p.1 ∈ l ∧ p.2 ∈ r ∧ key p.1 p.2 = true := by
  rcases p with ⟨a, b⟩
  simp only [innerMerge, List.mem_flatMap, List.mem_map, List.mem_filter]
  constructor
  · rintro ⟨x, hx, y, ⟨hy, hk⟩, hxy⟩
    cases hxy
    exact ⟨hx, hy, hk⟩
  · rintro ⟨ha, hb, hk⟩
    exact ⟨a, ha, b, ⟨hb, hk⟩, rfl⟩

/-- How many merged rows carry a given left row: its multiplicity on the
left times the number of right rows matching its key. -/
theorem countP_innerMerge_left {α β : Type} [DecidableEq α]
    (key : α → β → Bool) (l : List α) (r : List β) (a : α) :
    (innerMerge key l r).countP (fun p => decide (p.1 = a)) =
      l.countP (fun x => decide (x = a)) * r.countP (fun b => key a b) := by
  induction l with
  | nil => simp [innerMerge]
  | cons x l ih =>
    simp only [innerMerge, List.flatMap_cons, List.countP_append,
      List.countP_cons] at ih ⊢
    rw [List.countP_map, ih]
    by_cases hx : x = a
    · subst hx
      simp [Function.comp_def, List.countP_eq_length_filter, Nat.add_mul,
        Nat.add_comm]
    · simp [Function.comp_def, hx, List.countP_false]

/-- Mean of a mapped boolean series over a nonempty list, as a ratio of
counts. -/
theorem boolMean_map {α : Type} (f : α → Bool) (l : List α) (h : l ≠ []) :
    boolMean (l.map f) =
      some ((l.countP f : ℚ) / (l.length : ℚ)) := by
  obtain ⟨x, xs, rfl⟩ := List.exists_cons_of_ne_nil h
  rw [List.map_cons, boolMean, ← List.map_cons f x xs, List.countP_map,
    Function.id_comp, List.length_map]

/-- Comparison with `NaT` on the right is `false`. -/
theorem tsGe_none (x : Option Int) : tsGe x none = false := by
  cases x <;> rfl

/-- Comparison with `NaT` on the right is `false`. -/
theorem tsLe_none (x : Option Int) : tsLe x none = false := by
  cases x <;> rfl

/-- Where the scan `idxmaxGo` lands: either it keeps `best` and every
numeric cell of `rest` is bounded by `best.2`, or it returns a cell of
`rest` strictly above `best.2`, maximal, and strictly above every
numeric cell before its position. -/
theorem idxmaxGo_spec (rest : List (String × Cell)) (best : String × Int) :
    (idxmaxGo best rest = best.1 ∧
      ∀ (c' : String) (w : Int), (c', Cell.num w) ∈ rest → w ≤ best.2) ∨
    (∃ (i : Nat) (v : Int),
      rest[i]? = some (idxmaxGo best rest, Cell.num v) ∧ best.2 < v ∧
      (∀ (c' : String) (w : Int), (c', Cell.num w) ∈ rest → w ≤ v) ∧
      (∀ (c' : String) (w : Int), (c', Cell.num w) ∈ rest.take i → w < v)) := by
  induction rest generalizing best with
  | nil =>
    exact Or.inl ⟨rfl, fun c' w h => absurd h (List.not_mem_nil _)⟩
  | cons p rest ih =>
    obtain ⟨c, cell⟩ := p
    cases cell with
    | num v =>
      by_cases hlt : best.2 < v
      · have hgo : idxmaxGo best ((c, Cell.num v) :: rest) =
            idxmaxGo (c, v) rest := by
          simp [idxmaxGo, hlt]
        rcases ih (c, v) with ⟨heq, hle⟩ | ⟨i, u, hi, hbu, hle, hfirst⟩
        · refine Or.inr ⟨0, v, ?_, hlt, ?_, ?_⟩
          · rw [hgo, heq]
            simp
          · intro c' w hw
            rcases List.mem_cons.mp hw with h | h
            · simp only [Prod.mk.injEq, Cell.num.injEq] at h
              exact h.2.le
            · exact hle c' w h
          · intro c' w hw
            simp at hw
        · refine Or.inr ⟨i + 1, u, ?_, hlt.trans hbu, ?_, ?_⟩
          · rw [hgo]
            simpa using hi
          · intro c' w hw
            rcases List.mem_cons.mp hw with h | h
            · simp only [Prod.mk.injEq, Cell.num.injEq] at h
              exact h.2.le.trans hbu.le
            · exact hle c' w h
          · intro c' w hw
            rw [List.take_succ_cons] at hw
            rcases List.mem_cons.mp hw with h | h
            · simp only [Prod.mk.injEq, Cell.num.injEq] at h
              exact h.2 ▸ hbu
            · exact hfirst c' w h
      · have hgo : idxmaxGo best ((c, Cell.num v) :: rest) =
            idxmaxGo best rest := by
          simp [idxmaxGo, hlt]
        push_neg at hlt
        rcases ih best with ⟨heq, hle⟩ | ⟨i, u, hi, hbu, hle, hfirst⟩
        · refine Or.inl ⟨hgo.trans heq, ?_⟩
          intro c' w hw
          rcases List.mem_cons.mp hw with h | h
          · simp only [Prod.mk.injEq, Cell.num.injEq] at h
            exact h.2.le.trans hlt
          · exact hle c' w h
        · refine Or.inr ⟨i + 1, u, ?_, hbu, ?_, ?_⟩
          · rw [hgo]
            simpa using hi
          · intro c' w hw
            rcases List.mem_cons.mp hw with h | h
            · simp only [Prod.mk.injEq, Cell.num.injEq] at h
              exact (h.2.le.trans hlt).trans hbu.le
            · exact hle c' w h
          · intro c' w hw
            rw [List.take_succ_cons] at hw
            rcases List.mem_cons.mp hw with h | h
            · simp only [Prod.mk.injEq, Cell.num.injEq] at h
              exact lt_of_le_of_lt (h.2.le.trans hlt) hbu
            · exact hfirst c' w h
    | na =>
      have hgo : idxmaxGo best ((c, Cell.na) :: rest) = idxmaxGo best rest :=
        rfl
      rcases ih best with ⟨heq, hle⟩ | ⟨i, u, hi, hbu, hle, hfirst⟩
      · refine Or.inl ⟨hgo.trans heq, ?_⟩
        intro c' w hw
        rcases List.mem_cons.mp hw with h | h
        · simp at h
        · exact hle c' w h
      · refine Or.inr ⟨i + 1, u, ?_, hbu, ?_, ?_⟩
        · rw [hgo]
          simpa using hi
        · intro c' w hw
          rcases List.mem_cons.mp hw with h | h
          · simp at h
          · exact hle c' w h
        · intro c' w hw
          rw [List.take_succ_cons] at hw
          rcases List.mem_cons.mp hw with h | h
          · simp at h
          · exact hfirst c' w h
    | str s =>
      have hgo : idxmaxGo best ((c, Cell.str s) :: rest) = idxmaxGo best rest :=
        rfl
      rcases ih best with ⟨heq, hle⟩ | ⟨i, u, hi, hbu, hle, hfirst⟩
      · refine Or.inl ⟨hgo.trans heq, ?_⟩
        intro c' w hw
        rcases List.mem_cons.mp hw with h | h
        · simp at h
        · exact hle c' w h
      · refine Or.inr ⟨i + 1, u, ?_, hbu, ?_, ?_⟩
        · rw [hgo]
          simpa using hi
        · intro c' w hw
          rcases List.mem_cons.mp hw with h | h
          · simp at h
          · exact hle c' w h
        · intro c' w hw
          rw [List.take_succ_cons] at hw
          rcases List.mem_cons.mp hw with h | h
          · simp at h
          · exact hfirst c' w h

/-- Whenever `idxmax` names a column, that column is a first-seen
maximum among the numeric cells. -/
theorem idxmax_spec (pairs : List (String × Cell)) (c : String)
    (h : idxmax pairs = some c) : FirstMaxAt pairs c := by
  induction pairs with
  | nil => cases h
  | cons p rest ih =>
    obtain ⟨c0, cell⟩ := p
    cases cell with
    | num v0 =>
      have hh : idxmaxGo (c0, v0) rest = c := by
        have he : idxmax ((c0, Cell.num v0) :: rest) =
            some (idxmaxGo (c0, v0) rest) := rfl
        rw [he] at h
        exact Option.some.inj h
      rcases idxmaxGo_spec rest (c0, v0) with ⟨heq, hle⟩ |
        ⟨i, u, hi, hbu, hle, hfirst⟩
      · have hc : c = c0 := by rw [← hh, heq]
        subst hc
        refine ⟨0, v0, by simp, ?_, ?_⟩
        · intro c' w hw
          rcases List.mem_cons.mp hw with hx | hx
          · simp only [Prod.mk.injEq, Cell.num.injEq] at hx
            exact hx.2.le
          · exact hle c' w hx
        · intro c' w hw
          simp at hw
      · rw [hh] at hi
        refine ⟨i + 1, u, by simpa using hi, ?_, ?_⟩
        · intro c' w hw
          rcases List.mem_cons.mp hw with hx | hx
          · simp only [Prod.mk.injEq, Cell.num.injEq] at hx
            exact hx.2.le.trans hbu.le
          · exact hle c' w hx
        · intro c' w hw
          rw [List.take_succ_cons] at hw
          rcases List.mem_cons.mp hw with hx | hx
          · simp only [Prod.mk.injEq, Cell.num.injEq] at hx
            exact hx.2 ▸ hbu
          · exact hfirst c' w hx
    | na =>
      have h' : idxmax rest = some c := h
      obtain ⟨i, v, hi, hle, hfirst⟩ := ih h'
      refine ⟨i + 1, v, by simpa using hi, ?_, ?_⟩
      · intro c' w hw
        rcases List.mem_cons.mp hw with hx | hx
        · simp at hx
        · exact hle c' w hx
      · intro c' w hw
        rw [List.take_succ_cons] at hw
        rcases List.mem_cons.mp hw with hx | hx
        · simp at hx
        · exact hfirst c' w hx
    | str s =>
      have h' : idxmax rest = some c := h
      obtain ⟨i, v, hi, hle, hfirst⟩ := ih h'
      refine ⟨i + 1, v, by simpa using hi, ?_, ?_⟩
      · intro c' w hw
        rcases List.mem_cons.mp hw with hx | hx
        · simp at hx
        · exact hle c' w hx
      · intro c' w hw
        rw [List.take_succ_cons] at hw
        rcases List.mem_cons.mp hw with hx | hx
        · simp at hx
        · exact hfirst c' w hx

/-- Auxiliary columns for the C8 witness: same signal slice behind a
different identifier prefix. -/
def wCols : List String :=
  ["TagId", "Time", "CSN", "ClarityStart", "ClarityEnd", "RoomA", "RoomB"]

/-- Alternative header agreeing with `wCols` from `signalOffset` on. -/
def wColsAlt : List String :=
  ["Id1", "Id2", "Id3", "Id4", "Id5", "RoomA", "RoomB"]

/-- Row for the C8 witness. -/
def wRow : List Cell :=
  [Cell.str "T1", Cell.num 0, Cell.na, Cell.na, Cell.na,
   Cell.num 5, Cell.num 1]

/-- Row agreeing with `wRow` from `signalOffset` on but differing on
every identifier cell. -/
def wRowAlt : List Cell :=
  [Cell.num 9, Cell.na, Cell.str "Z", Cell.num 7, Cell.str "Q",
   Cell.num 5, Cell.num 1]

/-!
Claim theorems.
-/

/-- C1: the reported agreement over a joined table is the mean of the
boolean series `Location == Room1`, i.e. the count of matched rows whose
predicted `Location` equals the reference `Room1` divided by the total
count of matched rows, in both flows. -/
theorem agreement_is_match_fraction :
    (∀ (l : List PatientSignalRow) (r : List RefRow), mergePatient l r ≠ [] →
      agreementPatient l r =
        some (((mergePatient l r).countP
            (fun p => locEq p.1.location p.2.room1) : ℚ) /
          ((mergePatient l r).length : ℚ))) ∧
    (∀ (l : List ProviderSignalRow) (r : List RefRow), mergeProvider l r ≠ [] →
      agreementProvider l r =
        some (((mergeProvider l r).countP
            (fun p => locEq p.1.location p.2.room1) : ℚ) /
          ((mergeProvider l r).length : ℚ))) := by
  constructor
  · intro l r h
    unfold agreementPatient
    exact boolMean_map _ _ h
  · intro l r h
    unfold agreementProvider
    exact boolMean_map _ _ h

/-- Witness for C1 at a concrete one-row join. -/
theorem agreement_is_match_fraction_witness :
    mergePatient [aPat] [bRef] ≠ [] ∧
    agreementPatient [aPat] [bRef] =
      some (((mergePatient [aPat] [bRef]).countP
          (fun p => locEq p.1.location p.2.room1) : ℚ) /
        ((mergePatient [aPat] [bRef]).length : ℚ)) :=
  ⟨by decide, agreement_is_match_fraction.1 [aPat] [bRef] (by decide)⟩

/-- C2: the derived `Location` of a row is the name of the column
holding the maximum value over the signal-column slice, ties broken by
the first-seen maximum column; on the spec's three-row scenario the
predictions are `RoomA`, `RoomB`, `RoomA`. -/
theorem location_is_first_max :
    (∀ (cols : List String) (row : List Cell) (c : String),
      deriveLocation cols row = some c →
      FirstMaxAt ((cols.drop signalOffset).zip (row.drop signalOffset)) c) ∧
    derivedLocations scenarioTable =
      [some "RoomA", some "RoomB", some "RoomA"] :=
  ⟨fun _ _ _ h => idxmax_spec _ _ h, by decide⟩

/-- Witness for C2: a concrete row's derived location `RoomA` is a
first-seen maximum of its signal slice. -/
theorem location_is_first_max_witness :
    deriveLocation wCols wRow = some "RoomA" ∧
    FirstMaxAt ((wCols.drop signalOffset).zip (wRow.drop signalOffset))
      "RoomA" :=
  ⟨by decide, location_is_first_max.1 wCols wRow "RoomA" (by decide)⟩

/-- C3 counterexample: in the provider flow the code joins a signal row
to a reference row whose tag id differs, because it merges on `UMid` and
`Time` only; the join is therefore not an equi-join on tag id +
timestamp. -/
theorem join_not_on_tag_id :
    mergeProvider [provSig] [provRef] = [(provSig, provRef)] ∧
    provSig.tagId ≠ provRef.tagID := by
  decide

/-- C3 (amended): the join is an inner equi-join whose keys are exactly
encounter id (`CSN`) + timestamp in the patient flow and person id
(`UMid`) + timestamp in the provider flow; tag id is not a join key in
either flow. -/
theorem join_keys_exact :
    (∀ (l : List PatientSignalRow) (r : List RefRow)
        (p : PatientSignalRow × RefRow),
      p ∈ mergePatient l r ↔
        p.1 ∈ l ∧ p.2 ∈ r ∧ p.1.csn = p.2.csn ∧ p.1.time = p.2.time) ∧
    (∀ (l : List ProviderSignalRow) (r : List RefRow)
        (p : ProviderSignalRow × RefRow),
      p ∈ mergeProvider l r ↔
        p.1 ∈ l ∧ p.2 ∈ r ∧ p.1.umid = p.2.umid ∧ p.1.time = p.2.time) := by
  constructor
  · intro l r p
    rw [mergePatient, mem_innerMerge]
    simp [patientKeyMatch]
  · intro l r p
    rw [mergeProvider, mem_innerMerge]
    simp [providerKeyMatch]

/-- C4: the join is strict with exact key equality: a signal row with no
reference row sharing its exact key and timestamp appears in no joined
row, so it contributes to neither the numerator nor the denominator of
the agreement. -/
theorem unmatched_signal_row_excluded :
    (∀ (l : List PatientSignalRow) (r : List RefRow) (a : PatientSignalRow),
      (∀ b ∈ r, ¬(a.csn = b.csn ∧ a.time = b.time)) →
      ∀ p ∈ mergePatient l r, p.1 ≠ a) ∧
    (∀ (l : List ProviderSignalRow) (r : List RefRow) (a : ProviderSignalRow),
      (∀ b ∈ r, ¬(a.umid = b.umid ∧ a.time = b.time)) →
      ∀ p ∈ mergeProvider l r, p.1 ≠ a) := by
  constructor
  · intro l r a ha p hp heq
    rw [mergePatient] at hp
    obtain ⟨-, hbr, hk⟩ := (mem_innerMerge _ _ _ _).mp hp
    rw [heq] at hk
    simp only [patientKeyMatch, Bool.and_eq_true, decide_eq_true_eq] at hk
    exact ha p.2 hbr hk
  · intro l r a ha p hp heq
    rw [mergeProvider] at hp
    obtain ⟨-, hbr, hk⟩ := (mem_innerMerge _ _ _ _).mp hp
    rw [heq] at hk
    simp only [providerKeyMatch, Bool.and_eq_true, decide_eq_true_eq] at hk
    exact ha p.2 hbr hk

/-- Witness for C4 at a one-row signals table with no matching
reference row. -/
theorem unmatched_signal_row_excluded_witness :
    (∀ b ∈ [bRefOther], ¬(aPat.csn = b.csn ∧ aPat.time = b.time)) ∧
    ∀ p ∈ mergePatient [aPat] [bRefOther], p.1 ≠ aPat :=
  ⟨by decide,
   unmatched_signal_row_excluded.1 [aPat] [bRefOther] aPat (by decide)⟩

/-- C5 counterexample: one signal reading matched by two reference rows
sharing its key contributes two rows to the join, not exactly one. -/
theorem signal_row_duplicated_in_join :
    (mergePatient [aPat] [bRef, bRef2]).length = 2 ∧
    (mergePatient [aPat] [bRef, bRef2]).countP
      (fun p => decide (p.1 = aPat)) = 2 := by
  decide

/-- C5 (amended): a signal reading contributes one joined row per
matching reference record — its multiplicity in the signals table times
the number of reference rows sharing its key — so a reading with
several matches is duplicated rather than matched exactly once. -/
theorem joined_row_multiplicity :
    (∀ (l : List PatientSignalRow) (r : List RefRow) (a : PatientSignalRow),
      (mergePatient l r).countP (fun p => decide (p.1 = a)) =
        l.countP (fun x => decide (x = a)) *
          r.countP (fun b => patientKeyMatch a b)) ∧
    (∀ (l : List ProviderSignalRow) (r : List RefRow) (a : ProviderSignalRow),
      (mergeProvider l r).countP (fun p => decide (p.1 = a)) =
        l.countP (fun x => decide (x = a)) *
          r.countP (fun b => providerKeyMatch a b)) := by
  constructor
  · intro l r a
    rw [mergePatient]
    exact countP_innerMerge_left _ l r a
  · intro l r a
    rw [mergeProvider]
    exact countP_innerMerge_left _ l r a

/-- C6: the two patient coverage fractions are computed independently —
one the fraction of readings with `Time >= ClarityStart`, the other the
fraction with `Time <= ClarityEnd` — and neither is a joint
inside-the-window check, from which both differ on `covDemo`. -/
theorem coverage_bounds_independent :
    (∀ l : List PatientSignalRow, l ≠ [] →
      coverageStart l =
        some ((l.countP
            (fun a => tsGe a.time (toDatetime a.clarityStart)) : ℚ) /
          (l.length : ℚ)) ∧
      coverageEnd l =
        some ((l.countP
            (fun a => tsLe a.time (toDatetime a.clarityEnd)) : ℚ) /
          (l.length : ℚ))) ∧
    coverageStart covDemo = some (2 / 3) ∧
    coverageEnd covDemo = some (2 / 3) ∧
    jointInsideWindowFraction covDemo = some (1 / 3) := by
  refine ⟨fun l h => ⟨?_, ?_⟩, ?_, ?_, ?_⟩
  · unfold coverageStart
    exact boolMean_map _ _ h
  · unfold coverageEnd
    exact boolMean_map _ _ h
  · rw [show coverageStart covDemo = boolMean [true, true, false] from rfl]
    rw [show boolMean [true, true, false] =
      some ((List.countP id [true, true, false] : ℚ) /
        (([true, true, false] : List Bool).length : ℚ)) from rfl]
    norm_num [List.countP_cons, List.countP_nil]
  · rw [show coverageEnd covDemo = boolMean [true, false, true] from rfl]
    rw [show boolMean [true, false, true] =
      some ((List.countP id [true, false, true] : ℚ) /
        (([true, false, true] : List Bool).length : ℚ)) from rfl]
    norm_num [List.countP_cons, List.countP_nil]
  · rw [show jointInsideWindowFraction covDemo =
      boolMean [true, false, false] from rfl]
    rw [show boolMean [true, false, false] =
      some ((List.countP id [true, false, false] : ℚ) /
        (([true, false, false] : List Bool).length : ℚ)) from rfl]
    norm_num [List.countP_cons, List.countP_nil]

/-- Witness for C6 on the three-row demo table. -/
theorem coverage_bounds_independent_witness :
    covDemo ≠ [] ∧
    (coverageStart covDemo =
      some ((covDemo.countP
          (fun a => tsGe a.time (toDatetime a.clarityStart)) : ℚ) /
        (covDemo.length : ℚ)) ∧
     coverageEnd covDemo =
      some ((covDemo.countP
          (fun a => tsLe a.time (toDatetime a.clarityEnd)) : ℚ) /
        (covDemo.length : ℚ))) :=
  ⟨by decide, coverage_bounds_independent.1 covDemo (by decide)⟩

/-- C7: when the inner join produces zero matched rows the agreement is
`NaN` (`none`): the run does not fail and the value is not `0`. -/
theorem empty_join_agreement_undefined :
    (∀ (l : List PatientSignalRow) (r : List RefRow), mergePatient l r = [] →
      agreementPatient l r = none ∧ agreementPatient l r ≠ some 0) ∧
    (∀ (l : List ProviderSignalRow) (r : List RefRow), mergeProvider l r = [] →
      agreementProvider l r = none ∧ agreementProvider l r ≠ some 0) := by
  constructor
  · intro l r h
    have hn : agreementPatient l r = none := by
      unfold agreementPatient
      rw [h]
      rfl
    rw [hn]
    exact ⟨rfl, fun hx => Option.noConfusion hx⟩
  · intro l r h
    have hn : agreementProvider l r = none := by
      unfold agreementProvider
      rw [h]
      rfl
    rw [hn]
    exact ⟨rfl, fun hx => Option.noConfusion hx⟩

/-- Witness for C7 on a nonempty signals table with no matching
reference row. -/
theorem empty_join_agreement_undefined_witness :
    mergePatient [aPat] [bRefOther] = [] ∧
    (agreementPatient [aPat] [bRefOther] = none ∧
     agreementPatient [aPat] [bRefOther] ≠ some 0) :=
  ⟨by decide, empty_join_agreement_undefined.1 [aPat] [bRefOther] (by decide)⟩

/-- C8: argmax selection is deterministic — the derived locations are a
function of the table alone — and depends only on the columns from
`signalOffset` onward: changing the identifier prefix of the header or
of a row leaves the derived location unchanged. -/
theorem argmax_deterministic_slice_only :
    (∀ (cols cols' : List String) (row row' : List Cell),
      cols.drop signalOffset = cols'.drop signalOffset →
      row.drop signalOffset = row'.drop signalOffset →
      deriveLocation cols row = deriveLocation cols' row') ∧
    (∀ t1 t2 : RawTable, t1 = t2 →
      derivedLocations t1 = derivedLocations t2) := by
  refine ⟨fun cols cols' row row' h1 h2 => ?_, fun t1 t2 h => by rw [h]⟩
  unfold deriveLocation
  rw [h1, h2]

/-- Witness for C8: two rows differing in every identifier cell and
under different identifier headers get the same derived location. -/
theorem argmax_deterministic_slice_only_witness :
    wCols.drop signalOffset = wColsAlt.drop signalOffset ∧
    wRow.drop signalOffset = wRowAlt.drop signalOffset ∧
    deriveLocation wCols wRow = deriveLocation wColsAlt wRowAlt :=
  ⟨by decide, by decide,
   argmax_deterministic_slice_only.1 wCols wColsAlt wRow wRowAlt
     (by decide) (by decide)⟩

/-- C9: the script's only side effect is console output: whenever a run
completes, the file store (in particular both input tables) is exactly
what it was, and the console has only been appended to. -/
theorem script_writes_console_only (w w' : World)
    (h : runScript w = some w') :
    w'.files = w.files ∧ ∃ out, w'.console = w.console ++ out := by
  unfold runScript at h
  cases hp : runEntity "patient" w.files with
  | none => simp [hp] at h
  | some op =>
    cases hq : runEntity "provider" w.files with
    | none => simp [hp, hq] at h
    | some oq =>
      simp only [hp, hq, Option.bind_eq_bind, Option.some_bind,
        Option.pure_def, Option.some.injEq] at h
      subst h
      exact ⟨rfl, op ++ oq, List.append_assoc _ _ _⟩

/-- Witness for C9 on a concrete world holding all four input files. -/
theorem script_writes_console_only_witness :
    runScript demoWorld = some demoWorldOut ∧
    (demoWorldOut.files = demoWorld.files ∧
     ∃ out, demoWorldOut.console = demoWorld.console ++ out) :=
  ⟨rfl, script_writes_console_only demoWorld demoWorldOut rfl⟩

/-- C10: patient coverage is computed over every row of the signals
table — its denominator is the full table length, with no reference to
the join — and a reading whose window bound parses to `NaT` compares
`false`, counting against the fraction rather than being excluded from
the denominator. -/
theorem coverage_counts_every_reading :
    (∀ a : PatientSignalRow, toDatetime a.clarityStart = none →
      tsGe a.time (toDatetime a.clarityStart) = false) ∧
    (∀ a : PatientSignalRow, toDatetime a.clarityEnd = none →
      tsLe a.time (toDatetime a.clarityEnd) = false) ∧
    (∀ l : List PatientSignalRow, l ≠ [] →
      coverageStart l =
        some ((l.countP
            (fun a => tsGe a.time (toDatetime a.clarityStart)) : ℚ) /
          (l.length : ℚ)) ∧
      coverageEnd l =
        some ((l.countP
            (fun a => tsLe a.time (toDatetime a.clarityEnd)) : ℚ) /
          (l.length : ℚ))) := by
  refine ⟨fun a h => ?_, fun a h => ?_, fun l h => ⟨?_, ?_⟩⟩
  · rw [h, tsGe_none]
  · rw [h, tsLe_none]
  · unfold coverageStart
    exact boolMean_map _ _ h
  · unfold coverageEnd
    exact boolMean_map _ _ h

/-- Witness for C10 on a reading with missing window bounds. -/
theorem coverage_counts_every_reading_witness :
    toDatetime aPatNaT.clarityStart = none ∧
    tsGe aPatNaT.time (toDatetime aPatNaT.clarityStart) = false ∧
    toDatetime aPatNaT.clarityEnd = none ∧
    tsLe aPatNaT.time (toDatetime aPatNaT.clarityEnd) = false ∧
    ([aPatNaT] : List PatientSignalRow) ≠ [] ∧
    (coverageStart [aPatNaT] =
      some ((([aPatNaT] : List PatientSignalRow).countP
          (fun a => tsGe a.time (toDatetime a.clarityStart)) : ℚ) /
        (([aPatNaT] : List PatientSignalRow).length : ℚ)) ∧
     coverageEnd [aPatNaT] =
      some ((([aPatNaT] : List PatientSignalRow).countP
          (fun a => tsLe a.time (toDatetime a.clarityEnd)) : ℚ) /
        (([aPatNaT] : List PatientSignalRow).length : ℚ))) :=
  ⟨by decide,
   coverage_counts_every_reading.1 aPatNaT (by decide),
   by decide,
   coverage_counts_every_reading.2.1 aPatNaT (by decide),
   by decide,
   coverage_counts_every_reading.2.2 [aPatNaT] (by decide)⟩

end RFID2
